import Mathlib

/-!
Shallow embedding of the identifier-allocation and access-accounting core of
the URL-Shortener service (src/services/urlService.js together with the
storage schema src/models/Url.js and the error taxonomy src/utils/errors.js).

Modelling conventions:
* Machine state is the list of stored records (the Mongo collection for the
  Url model), in insertion order.
* The nanoid generator is an oracle gen : Nat -> String, indexed by a global
  call counter so that the total number of identifier-generation attempts of
  one logical create operation can be observed.
* The storage layer save operation is modelled with an oracle
  env : Nat -> SaveOutcome describing, per save, whether the insert succeeds,
  fails with a duplicate-key error (code 11000, raised by the unique index on
  shortId when a concurrent writer inserted the same candidate between the
  existence pre-check and the insert), or fails with another database error.
  A save whose shortId is already present in the local store always fails
  with the duplicate-key error, which embeds the unique index itself.
* JavaScript String.prototype.trim is embedded as jsTrim over the character
  list of the string, so that its algebraic properties (idempotence) are
  provable.
* The unbounded recursion of createShortUrl (it re-invokes itself on a
  duplicate-key error) is made total with an explicit fuel parameter counting
  the remaining recursive re-invocations; a result of none means the fuel was
  exhausted before the operation finished.
-/

namespace UrlShortener

/-- Error taxonomy of src/utils/errors.js: NotFoundError (404),
ValidationError (400), DatabaseError (500). -/
inductive ServiceError where
  | notFoundError
  | validationError
  | databaseError
deriving DecidableEq, Repr

/-- Stored record of the Url model (src/models/Url.js): originalUrl, shortId,
clickCount (non-negative, modelled as Nat) and createdAt (an abstract
timestamp, modelled as Nat). -/
structure UrlRecord where
  originalUrl : String
  shortId : String
  clickCount : Nat
  createdAt : Nat
deriving DecidableEq, Repr

/-- The Url collection, in insertion order. -/
abbrev Store := List UrlRecord

/-- Characters stripped by JavaScript String.prototype.trim (the common
WhiteSpace and LineTerminator code points). -/
def isJsWhitespace (ch : Char) : Bool :=
  ch == ' ' || ch == '\t' || ch == '\n' || ch == '\r' || ch == '\x0b' || ch == '\x0c'

/-- Removal of the leading whitespace run of a character list. -/
def dropLeadingWS (l : List Char) : List Char :=
  l.dropWhile isJsWhitespace

/-- Removal of the trailing whitespace run of a character list. -/
def dropTrailingWS : List Char → List Char
  | [] => []
  | a :: t =>
    match dropTrailingWS t with
    | [] => if isJsWhitespace a then [] else [a]
    | b :: u => a :: b :: u

/-- Embedding of JavaScript String.prototype.trim: strip leading and trailing
whitespace. -/
def jsTrim (s : String) : String :=
  ⟨dropTrailingWS (dropLeadingWS s.data)⟩

/-- Url.findByShortId (src/models/Url.js line 50): findOne on the shortId
field, a pure lookup returning the first matching record. -/
def findByShortId (store : Store) (id : String) : Option UrlRecord :=
  store.find? (fun r => r.shortId == id)

/-- Observation of the clickCount of the record stored under an id. -/
def clickCountOf (store : Store) (id : String) : Option Nat :=
  (findByShortId store id).map (fun r => r.clickCount)

/-- Outcome of one storage-layer save, as seen by the catch block of
createShortUrl: success, a duplicate-key error (error.code 11000 from the
unique index on shortId), or any other database failure. -/
inductive SaveOutcome where
  | ok
  | dupKey
  | dbFail
deriving DecidableEq, Repr

/-- Result of the candidate-generation while loop of createShortUrl
(src/services/urlService.js lines 44-66): either the loop left a candidate
shortId (found, together with the final value of the attempts counter and of
the global generation counter; the shortId is none exactly when the loop body
never ran, leaving the JavaScript variable undefined), or it threw the
DatabaseError for exhausted attempts. -/
inductive GenResult where
  | found (shortId : Option String) (attempts : Nat) (c : Nat)
  | exhausted (c : Nat)
deriving DecidableEq, Repr

/-- Body of the while loop of createShortUrl. Each iteration draws gen c and
checks findByShortId; on a miss it breaks with the candidate, on a hit it
increments attempts and throws DatabaseError once attempts reaches
maxAttempts. The extra structural parameter left is the exact number of
remaining iterations maxAttempts - attempts, which makes the termination
measure of the source loop explicit; callers establish attempts + left =
maxAttempts. -/
def genLoopS (store : Store) (gen : Nat → String) (maxAttempts : Nat) :
    Nat → Nat → Nat → GenResult
  | c, attempts, 0 => .found none attempts c
  | c, attempts, left + 1 =>
    let sid := gen c
    match findByShortId store sid with
    | none => .found (some sid) attempts (c + 1)
    | some _ =>
      if attempts + 1 ≥ maxAttempts then .exhausted (c + 1)
      else genLoopS store gen maxAttempts (c + 1) (attempts + 1) left

/-- The while loop of createShortUrl, entered with attempts = 0. -/
def genLoop (store : Store) (gen : Nat → String) (maxAttempts : Nat) (c : Nat) :
    GenResult :=
  genLoopS store gen maxAttempts c 0 maxAttempts

/-- Declarative field validation of the Url schema (src/models/Url.js), run by
mongoose before the insert: shortId has between 1 and 50 characters and
originalUrl passes the URL-format validator (the same new URL check the
service uses, embedded as the oracle parseOk). -/
def schemaValid (parseOk : String → Bool) (r : UrlRecord) : Bool :=
  decide (1 ≤ r.shortId.length) && decide (r.shortId.length ≤ 50) && parseOk r.originalUrl

/-- Successful result shape of createShortUrl: { shortId, shortUrl,
originalUrl }. -/
structure CreateOk where
  shortId : String
  shortUrl : String
  originalUrl : String
deriving DecidableEq, Repr

/-- One pass of createShortUrl (src/services/urlService.js lines 28-98)
without the recursive duplicate-key re-invocation, which is abstracted as the
continuation retry (called with the trimmed url, the store and the generation
counter at the failure point, exactly as the source re-invokes itself):
validate the input, run the candidate loop, then attempt the save.  In the
save, mongoose first runs the schema validation (name ValidationError in the
catch), then the insert hits the unique index (error.code 11000, here: the
candidate is already stored, or the race oracle env reports a concurrent
duplicate) or another failure (env reports dbFail). -/
def createStep (parseOk : String → Bool) (gen : Nat → String)
    (env : Nat → SaveOutcome) (baseUrl : String) (maxAttempts now : Nat)
    (rawUrl : Option String) (store : Store) (c : Nat)
    (retry : String → Store → Nat → Option (Except ServiceError CreateOk × Store × Nat)) :
    Option (Except ServiceError CreateOk × Store × Nat) :=
  match rawUrl with
  | none => some (.error .validationError, store, c)
  | some s =>
    if s = "" then some (.error .validationError, store, c)
    else
      let u := jsTrim s
      if parseOk u then
        match genLoop store gen maxAttempts c with
        | .exhausted c1 => some (.error .databaseError, store, c1)
        | .found none _ c1 => some (.error .validationError, store, c1)
        | .found (some sid) attempts c1 =>
          if schemaValid parseOk ⟨u, sid, 0, now⟩ then
            match (if (findByShortId store sid).isSome then SaveOutcome.dupKey else env c1) with
            | .ok =>
              some (.ok ⟨sid, baseUrl ++ "/" ++ sid, u⟩, store ++ [⟨u, sid, 0, now⟩], c1)
            | .dupKey =>
              if attempts < maxAttempts then retry u store c1
              else some (.error .databaseError, store, c1)
            | .dbFail => some (.error .databaseError, store, c1)
          else some (.error .validationError, store, c1)
      else some (.error .validationError, store, c)

/-- UrlService.createShortUrl with an explicit fuel bound on the recursive
duplicate-key re-invocations (the source recursion is unbounded; none means
the fuel ran out). The recursive call restarts createStep from scratch on the
trimmed url: in particular its attempts counter restarts at 0, exactly as in
the source. -/
def createShortUrlAux (parseOk : String → Bool) (gen : Nat → String)
    (env : Nat → SaveOutcome) (baseUrl : String) (maxAttempts now : Nat) :
    Nat → Option String → Store → Nat → Option (Except ServiceError CreateOk × Store × Nat)
  | 0, rawUrl, store, c =>
    createStep parseOk gen env baseUrl maxAttempts now rawUrl store c
      (fun _ _ _ => none)
  | fuel + 1, rawUrl, store, c =>
    createStep parseOk gen env baseUrl maxAttempts now rawUrl store c
      (fun u st c1 => createShortUrlAux parseOk gen env baseUrl maxAttempts now fuel (some u) st c1)

/-- UrlService.createShortUrl: maxAttempts is 5 and the global generation
counter starts at 0. -/
def createShortUrl (parseOk : String → Bool) (gen : Nat → String)
    (env : Nat → SaveOutcome) (baseUrl : String) (now fuel : Nat)
    (rawUrl : Option String) (store : Store) :
    Option (Except ServiceError CreateOk × Store × Nat) :=
  createShortUrlAux parseOk gen env baseUrl 5 now fuel rawUrl store 0

/-- The findOneAndUpdate {shortId} {inc clickCount 1} {new true} call of
getOriginalUrl, as one atomic store operation: locate the first record with
the given shortId, increment its clickCount, and return the post-increment
record together with the updated store. -/
def incFirst (id : String) : Store → Option (UrlRecord × Store)
  | [] => none
  | r :: rs =>
    if r.shortId == id then
      some ({ r with clickCount := r.clickCount + 1 },
            { r with clickCount := r.clickCount + 1 } :: rs)
    else
      match incFirst id rs with
      | none => none
      | some (u, rs1) => some (u, r :: rs1)

/-- UrlService.getOriginalUrl (src/services/urlService.js lines 107-131):
validate the shortId argument, then atomically increment-and-fetch on the
trimmed id; absent records give NotFoundError. Returns the result together
with the post-call store. -/
def getOriginalUrl (shortId : Option String) (store : Store) :
    Except ServiceError String × Store :=
  match shortId with
  | none => (.error .validationError, store)
  | some s =>
    if s = "" then (.error .validationError, store)
    else
      match incFirst (jsTrim s) store with
      | none => (.error .notFoundError, store)
      | some (r, store1) => (.ok r.originalUrl, store1)

/-- Analytics result shape: { shortId, originalUrl, clickCount, createdAt }. -/
structure Analytics where
  shortId : String
  originalUrl : String
  clickCount : Nat
  createdAt : Nat
deriving DecidableEq, Repr

/-- UrlService.getAnalytics (src/services/urlService.js lines 140-165):
validate the shortId argument, then a pure findOne on the trimmed id; absent
records give NotFoundError. Returns the result together with the post-call
store. -/
def getAnalytics (shortId : Option String) (store : Store) :
    Except ServiceError Analytics × Store :=
  match shortId with
  | none => (.error .validationError, store)
  | some s =>
    if s = "" then (.error .validationError, store)
    else
      match findByShortId store (jsTrim s) with
      | none => (.error .notFoundError, store)
      | some r => (.ok ⟨r.shortId, r.originalUrl, r.clickCount, r.createdAt⟩, store)

/-- Shape of the state change and of the returned value of every successful
create: the new record is appended, its shortId was absent from the prior
store, non-empty and produced by the generator, the stored originalUrl is the
trimmed input, and shortUrl is baseUrl, a slash and the shortId. -/
def OkShape (gen : Nat → String) (baseUrl : String) (now : Nat)
    (rawUrl : Option String) (store : Store) (out : CreateOk) (st : Store) : Prop :=
  st = store ++ [⟨out.originalUrl, out.shortId, 0, now⟩] ∧
  findByShortId store out.shortId = none ∧
  out.shortId ≠ "" ∧
  (∃ i, out.shortId = gen i) ∧
  (∀ s, rawUrl = some s → out.originalUrl = jsTrim s) ∧
  out.shortUrl = baseUrl ++ "/" ++ out.shortId

example : jsTrim "  https://example.com/a " = "https://example.com/a" := by decide

example :
    getOriginalUrl (some "ab") [⟨"https://e.com/x", "ab", 3, 0⟩] =
      (.ok "https://e.com/x", [⟨"https://e.com/x", "ab", 4, 0⟩]) := rfl

example :
    createShortUrl (fun _ => true) (fun _ => "aaaaaaaa") (fun _ => .ok)
      "http://sho.rt" 0 0 (some "https://example.com/a") [] =
      some (.ok ⟨"aaaaaaaa", "http://sho.rt/aaaaaaaa", "https://example.com/a"⟩,
        [⟨"https://example.com/a", "aaaaaaaa", 0, 0⟩], 1) := rfl

theorem dropWhile_head_false {p : Char → Bool} :
    ∀ {l t : List Char} {a : Char}, l.dropWhile p = a :: t → p a = false := by
  intro l
  induction l with
  | nil => intro t a h; simp at h
  | cons b l ih =>
    intro t a h
    by_cases hb : p b
    · rw [List.dropWhile_cons_of_pos hb] at h
      exact ih h
    · rw [List.dropWhile_cons_of_neg hb] at h
      cases h
      simpa using hb

theorem dropWhile_self_of_head {p : Char → Bool} {l t : List Char} {a : Char}
    (h : l.dropWhile p = a :: t) : (a :: t).dropWhile p = a :: t := by
  rw [List.dropWhile_cons_of_neg (by simp [dropWhile_head_false h])]

theorem dropTrailingWS_idem : ∀ l : List Char,
    dropTrailingWS (dropTrailingWS l) = dropTrailingWS l := by
  intro l
  induction l with
  | nil => rfl
  | cons a t ih =>
    show dropTrailingWS (dropTrailingWS (a :: t)) = dropTrailingWS (a :: t)
    rw [dropTrailingWS]
    cases h : dropTrailingWS t with
    | nil =>
      by_cases ha : isJsWhitespace a
      · simp [ha, dropTrailingWS]
      · simp only [Bool.not_eq_true] at ha
        simp [ha, dropTrailingWS]
    | cons b u =>
      have hbu : dropTrailingWS (b :: u) = b :: u := by rw [← h, ih, h]
      rw [dropTrailingWS, hbu]

theorem dropTrailingWS_cons_head {a : Char} (t : List Char)
    (ha : isJsWhitespace a = false) :
    ∃ u, dropTrailingWS (a :: t) = a :: u := by
  rw [dropTrailingWS]
  cases dropTrailingWS t with
  | nil => exact ⟨[], by simp [ha]⟩
  | cons b u => exact ⟨b :: u, rfl⟩

theorem jsTrim_idem (s : String) : jsTrim (jsTrim s) = jsTrim s := by
  have key : ∀ l : List Char,
      dropTrailingWS (dropLeadingWS (dropTrailingWS (dropLeadingWS l))) =
        dropTrailingWS (dropLeadingWS l) := by
    intro l
    cases hA : dropLeadingWS l with
    | nil => simp [dropTrailingWS, dropLeadingWS]
    | cons a t =>
      have ha := dropWhile_head_false (p := isJsWhitespace) hA
      obtain ⟨u, hu⟩ := dropTrailingWS_cons_head t ha
      rw [hu]
      have h2 : dropLeadingWS (a :: u) = a :: u := by
        rw [dropLeadingWS, List.dropWhile_cons_of_neg (by simp [ha])]
      rw [h2, ← hu, dropTrailingWS_idem]
  show (⟨dropTrailingWS (dropLeadingWS (jsTrim s).data)⟩ : String) = jsTrim s
  have hdata : (jsTrim s).data = dropTrailingWS (dropLeadingWS s.data) := rfl
  rw [hdata, key]
  rfl

theorem jsTrim_eq_empty_of {s : String} (h : jsTrim s = s) (h2 : s ≠ "") :
    jsTrim s ≠ "" := by rw [h]; exact h2

theorem findByShortId_nil {id : String} : findByShortId [] id = none := rfl

theorem findByShortId_cons {x : UrlRecord} {xs : Store} {id : String} :
    findByShortId (x :: xs) id =
      if x.shortId == id then some x else findByShortId xs id := by
  by_cases h : (x.shortId == id) = true
  · rw [if_pos h]
    exact List.find?_cons_of_pos _ h
  · rw [if_neg h]
    exact List.find?_cons_of_neg _ h

theorem findByShortId_eq_none {store : Store} {id : String} :
    findByShortId store id = none ↔ ∀ r ∈ store, r.shortId ≠ id := by
  simp [findByShortId, List.find?_eq_none]

theorem findByShortId_append {s1 s2 : Store} {id : String}
    (h : findByShortId s1 id = none) :
    findByShortId (s1 ++ s2) id = findByShortId s2 id := by
  induction s1 with
  | nil => rfl
  | cons x xs ih =>
    rw [findByShortId_cons] at h
    rw [List.cons_append, findByShortId_cons]
    by_cases hx : (x.shortId == id) = true
    · rw [if_pos hx] at h; cases h
    · rw [if_neg hx] at h
      rw [if_neg hx]
      exact ih h

theorem findByShortId_append_left {s1 s2 : Store} {id : String} {r : UrlRecord}
    (h : findByShortId s1 id = some r) :
    findByShortId (s1 ++ s2) id = some r := by
  induction s1 with
  | nil => cases h
  | cons x xs ih =>
    rw [findByShortId_cons] at h
    rw [List.cons_append, findByShortId_cons]
    by_cases hx : (x.shortId == id) = true
    · rw [if_pos hx] at h ⊢; exact h
    · rw [if_neg hx] at h
      rw [if_neg hx]
      exact ih h

theorem findByShortId_singleton {r : UrlRecord} :
    findByShortId [r] r.shortId = some r := by
  rw [findByShortId_cons, if_pos (by simp)]

theorem incFirst_eq_none {id : String} :
    ∀ {store : Store}, incFirst id store = none ↔ findByShortId store id = none := by
  intro store
  induction store with
  | nil => simp [incFirst, findByShortId]
  | cons x xs ih =>
    rw [incFirst, findByShortId_cons]
    by_cases hx : (x.shortId == id) = true
    · rw [if_pos hx, if_pos hx]
      simp
    · rw [if_neg hx, if_neg hx]
      cases hrec : incFirst id xs with
      | none => simp [ih.mp hrec]
      | some p =>
        simp only [← ih]
        rw [hrec]
        simp

theorem incFirst_of_find {id : String} :
    ∀ {store : Store} {r : UrlRecord}, findByShortId store id = some r →
    ∃ store1, incFirst id store =
        some ({ r with clickCount := r.clickCount + 1 }, store1) ∧
      findByShortId store1 id = some { r with clickCount := r.clickCount + 1 } ∧
      ∀ t, t ≠ id → findByShortId store1 t = findByShortId store t := by
  intro store
  induction store with
  | nil => intro r h; cases h
  | cons x xs ih =>
    intro r h
    rw [findByShortId_cons] at h
    by_cases hx : (x.shortId == id) = true
    · rw [if_pos hx] at h
      have hxr : x = r := by injection h
      subst hxr
      have hxid : x.shortId = id := by simpa using hx
      refine ⟨{ x with clickCount := x.clickCount + 1 } :: xs, ?_, ?_, ?_⟩
      · rw [incFirst, if_pos hx]
      · rw [findByShortId_cons]
        simp [hxid]
      · intro t ht
        rw [findByShortId_cons, findByShortId_cons]
        have hcond : (x.shortId == t) = false := by
          simp only [hxid]
          exact beq_eq_false_iff_ne.mpr (fun hc => ht hc.symm)
        simp [hcond]
    · rw [if_neg hx] at h
      obtain ⟨st1, hinc, hfind, hframe⟩ := ih (r := r) h
      refine ⟨x :: st1, ?_, ?_, ?_⟩
      · rw [incFirst, if_neg hx, hinc]
      · rw [findByShortId_cons, if_neg hx]
        exact hfind
      · intro t ht
        rw [findByShortId_cons, findByShortId_cons]
        by_cases hxt : (x.shortId == t) = true
        · rw [if_pos hxt, if_pos hxt]
        · rw [if_neg hxt, if_neg hxt]
          exact hframe t ht

theorem incFirst_some_spec {id : String} {store : Store} {r1 : UrlRecord}
    {store1 : Store} (h : incFirst id store = some (r1, store1)) :
    ∃ r, findByShortId store id = some r ∧
      r1 = { r with clickCount := r.clickCount + 1 } ∧
      findByShortId store1 id = some r1 ∧
      ∀ t, t ≠ id → findByShortId store1 t = findByShortId store t := by
  cases hf : findByShortId store id with
  | none =>
    rw [incFirst_eq_none.mpr hf] at h
    cases h
  | some r =>
    obtain ⟨st1, hinc, hfind, hframe⟩ := incFirst_of_find hf
    rw [h] at hinc
    have h1 : (r1, store1) = ({ r with clickCount := r.clickCount + 1 }, st1) := by
      injection hinc
    have h2 : r1 = { r with clickCount := r.clickCount + 1 } := congrArg Prod.fst h1
    have h3 : store1 = st1 := congrArg Prod.snd h1
    subst h3
    refine ⟨r, rfl, h2, ?_, hframe⟩
    rw [h2]
    exact hfind

theorem genLoopS_found_some {store : Store} {gen : Nat → String} {maxA : Nat} :
    ∀ {left c attempts : Nat} {sid : String} {a c1 : Nat},
      genLoopS store gen maxA c attempts left = .found (some sid) a c1 →
      findByShortId store sid = none ∧ ∃ i, sid = gen i := by
  intro left
  induction left with
  | zero =>
    intro c attempts sid a c1 h
    simp [genLoopS] at h
  | succ left ih =>
    intro c attempts sid a c1 h
    rw [genLoopS] at h
    cases hf : findByShortId store (gen c) with
    | none =>
      rw [hf] at h
      cases h
      exact ⟨hf, c, rfl⟩
    | some r =>
      rw [hf] at h
      by_cases hge : attempts + 1 ≥ maxA
      · rw [if_pos hge] at h; cases h
      · rw [if_neg hge] at h
        exact ih h

theorem genLoopS_not_found_none {store : Store} {gen : Nat → String} {maxA : Nat} :
    ∀ {left c attempts : Nat}, attempts + left = maxA → 0 < left →
      ∀ {a c1 : Nat}, genLoopS store gen maxA c attempts left ≠ .found none a c1 := by
  intro left
  induction left with
  | zero => intro c attempts h1 h2; omega
  | succ left ih =>
    intro c attempts hinv _ a c1 h
    rw [genLoopS] at h
    cases hf : findByShortId store (gen c) with
    | none => rw [hf] at h; simp at h
    | some r =>
      rw [hf] at h
      by_cases hge : attempts + 1 ≥ maxA
      · rw [if_pos hge] at h; cases h
      · rw [if_neg hge] at h
        exact ih (by omega) (by omega) h

theorem genLoop_not_found_none {store : Store} {gen : Nat → String} {maxA : Nat}
    {c : Nat} (hpos : 0 < maxA) {a c1 : Nat} :
    genLoop store gen maxA c ≠ .found none a c1 :=
  genLoopS_not_found_none (by omega) hpos

theorem schemaValid_shortId_ne_empty {parseOk : String → Bool} {r : UrlRecord}
    (h : schemaValid parseOk r = true) : r.shortId ≠ "" := by
  intro he
  rw [schemaValid, he] at h
  simp at h

theorem createStep_ok {parseOk : String → Bool} {gen : Nat → String}
    {env : Nat → SaveOutcome} {baseUrl : String} {maxA now : Nat}
    {rawUrl : Option String} {store : Store} {c : Nat}
    {retry : String → Store → Nat → Option (Except ServiceError CreateOk × Store × Nat)}
    {out : CreateOk} {st : Store} {c1 : Nat}
    (hretry : ∀ u st0 c0 out1 st1 c2, retry u st0 c0 = some (.ok out1, st1, c2) →
      OkShape gen baseUrl now (some u) st0 out1 st1)
    (h : createStep parseOk gen env baseUrl maxA now rawUrl store c retry =
      some (.ok out, st, c1)) :
    OkShape gen baseUrl now rawUrl store out st := by
  cases rawUrl with
  | none => simp [createStep] at h
  | some s =>
    rw [createStep] at h
    by_cases hs : s = ""
    · rw [if_pos hs] at h; simp at h
    · rw [if_neg hs] at h
      by_cases hp : parseOk (jsTrim s) = true
      · rw [if_pos hp] at h
        split at h
        · simp at h
        · simp at h
        · rename_i sid attempts c2 heq
          rw [genLoop] at heq
          obtain ⟨hfind, i, hi⟩ := genLoopS_found_some heq
          by_cases hsch :
              schemaValid parseOk ⟨jsTrim s, sid, 0, now⟩ = true
          · rw [if_pos hsch] at h
            rw [hfind] at h
            simp only [Option.isSome_none, Bool.false_eq_true, if_false] at h
            split at h
            · rename_i henv
              simp only [Option.some.injEq, Prod.mk.injEq] at h
              obtain ⟨hres, hst, hc⟩ := h
              have hout : out = ⟨sid, baseUrl ++ "/" ++ sid, jsTrim s⟩ := by
                injection hres.symm
              subst hout
              refine ⟨hst.symm, hfind, schemaValid_shortId_ne_empty hsch,
                ⟨i, hi⟩, ?_, rfl⟩
              intro s2 hs2
              injection hs2 with hs2
              rw [hs2]
            · rename_i henv
              by_cases hlt : attempts < maxA
              · rw [if_pos hlt] at h
                obtain ⟨h1, h2, h3, h4, h5, h6⟩ := hretry _ _ _ _ _ _ h
                refine ⟨h1, h2, h3, h4, ?_, h6⟩
                intro s2 hs2
                have hss : s2 = s := by injection hs2 with hx; exact hx.symm
                subst hss
                rw [h5 (jsTrim s2) rfl, jsTrim_idem]
              · rw [if_neg hlt] at h; simp at h
            · rename_i henv
              simp at h
          · rw [if_neg hsch] at h; simp at h
      · rw [if_neg hp] at h; simp at h

theorem createShortUrlAux_ok {parseOk : String → Bool} {gen : Nat → String}
    {env : Nat → SaveOutcome} {baseUrl : String} {maxA now : Nat} :
    ∀ {fuel : Nat} {rawUrl : Option String} {store : Store} {c : Nat}
      {out : CreateOk} {st : Store} {c1 : Nat},
      createShortUrlAux parseOk gen env baseUrl maxA now fuel rawUrl store c =
        some (.ok out, st, c1) →
      OkShape gen baseUrl now rawUrl store out st := by
  intro fuel
  induction fuel with
  | zero =>
    intro rawUrl store c out st c1 h
    exact createStep_ok (fun u st0 c0 out1 st1 c2 hr => by cases hr) h
  | succ fuel ih =>
    intro rawUrl store c out st c1 h
    exact createStep_ok (fun u st0 c0 out1 st1 c2 hr => ih hr) h

theorem createStep_err {parseOk : String → Bool} {gen : Nat → String}
    {env : Nat → SaveOutcome} {baseUrl : String} {maxA now : Nat}
    {rawUrl : Option String} {store : Store} {c : Nat}
    {retry : String → Store → Nat → Option (Except ServiceError CreateOk × Store × Nat)}
    {e : ServiceError} {st : Store} {c1 : Nat}
    (hretry : ∀ u st0 c0 e1 st1 c2, retry u st0 c0 = some (.error e1, st1, c2) →
      st1 = st0)
    (h : createStep parseOk gen env baseUrl maxA now rawUrl store c retry =
      some (.error e, st, c1)) :
    st = store := by
  cases rawUrl with
  | none => simp [createStep] at h; exact h.2.1.symm
  | some s =>
    rw [createStep] at h
    by_cases hs : s = ""
    · rw [if_pos hs] at h
      simp only [Option.some.injEq, Prod.mk.injEq] at h
      exact h.2.1.symm
    · rw [if_neg hs] at h
      by_cases hp : parseOk (jsTrim s) = true
      · rw [if_pos hp] at h
        split at h
        · simp only [Option.some.injEq, Prod.mk.injEq] at h
          exact h.2.1.symm
        · simp only [Option.some.injEq, Prod.mk.injEq] at h
          exact h.2.1.symm
        · rename_i sid attempts c2 heq
          by_cases hsch :
              schemaValid parseOk ⟨jsTrim s, sid, 0, now⟩ = true
          · rw [if_pos hsch] at h
            split at h
            · simp at h
            · by_cases hlt : attempts < maxA
              · rw [if_pos hlt] at h
                exact hretry _ _ _ _ _ _ h
              · rw [if_neg hlt] at h
                simp only [Option.some.injEq, Prod.mk.injEq] at h
                exact h.2.1.symm
            · simp only [Option.some.injEq, Prod.mk.injEq] at h
              exact h.2.1.symm
          · rw [if_neg hsch] at h
            simp only [Option.some.injEq, Prod.mk.injEq] at h
            exact h.2.1.symm
      · rw [if_neg hp] at h
        simp only [Option.some.injEq, Prod.mk.injEq] at h
        exact h.2.1.symm

theorem createShortUrlAux_err {parseOk : String → Bool} {gen : Nat → String}
    {env : Nat → SaveOutcome} {baseUrl : String} {maxA now : Nat} :
    ∀ {fuel : Nat} {rawUrl : Option String} {store : Store} {c : Nat}
      {e : ServiceError} {st : Store} {c1 : Nat},
      createShortUrlAux parseOk gen env baseUrl maxA now fuel rawUrl store c =
        some (.error e, st, c1) →
      st = store := by
  intro fuel
  induction fuel with
  | zero =>
    intro rawUrl store c e st c1 h
    exact createStep_err (fun u st0 c0 e1 st1 c2 hr => by cases hr) h
  | succ fuel ih =>
    intro rawUrl store c e st c1 h
    exact createStep_err (fun u st0 c0 e1 st1 c2 hr => ih hr) h

theorem createStep_bad_input {parseOk : String → Bool} {gen : Nat → String}
    {env : Nat → SaveOutcome} {baseUrl : String} {maxA now : Nat}
    {rawUrl : Option String} {store : Store} {c : Nat}
    {retry : String → Store → Nat → Option (Except ServiceError CreateOk × Store × Nat)}
    (hbad : rawUrl = none ∨ rawUrl = some "" ∨
      ∃ s, rawUrl = some s ∧ parseOk (jsTrim s) = false) :
    createStep parseOk gen env baseUrl maxA now rawUrl store c retry =
      some (.error .validationError, store, c) := by
  rcases hbad with h | h | ⟨s, hraw, hp⟩
  · subst h; rfl
  · subst h
    rw [createStep, if_pos rfl]
  · subst hraw
    rw [createStep]
    by_cases hs : s = ""
    · rw [if_pos hs]
    · rw [if_neg hs, if_neg (by simp [hp])]

theorem createShortUrlAux_bad_input {parseOk : String → Bool} {gen : Nat → String}
    {env : Nat → SaveOutcome} {baseUrl : String} {maxA now : Nat}
    {fuel : Nat} {rawUrl : Option String} {store : Store} {c : Nat}
    (hbad : rawUrl = none ∨ rawUrl = some "" ∨
      ∃ s, rawUrl = some s ∧ parseOk (jsTrim s) = false) :
    createShortUrlAux parseOk gen env baseUrl maxA now fuel rawUrl store c =
      some (.error .validationError, store, c) := by
  cases fuel with
  | zero => exact createStep_bad_input hbad
  | succ fuel => exact createStep_bad_input hbad

theorem createStep_no_valerr {parseOk : String → Bool} {gen : Nat → String}
    {env : Nat → SaveOutcome} {baseUrl : String} {now : Nat}
    {store : Store} {c : Nat}
    {retry : String → Store → Nat → Option (Except ServiceError CreateOk × Store × Nat)}
    (hlen : ∀ i, (gen i).length = 8) (hempty : parseOk "" = false)
    {s : String} (hs : s ≠ "") (hp : parseOk (jsTrim s) = true)
    (hretry : ∀ u st0 c0 st1 c2, parseOk (jsTrim u) = true → u ≠ "" →
      retry u st0 c0 ≠ some (.error .validationError, st1, c2))
    {st : Store} {c1 : Nat} :
    createStep parseOk gen env baseUrl 5 now (some s) store c retry ≠
      some (.error .validationError, st, c1) := by
  intro h
  rw [createStep, if_neg hs, if_pos hp] at h
  split at h
  · simp at h
  · rename_i a c2 heq
    exact genLoop_not_found_none (by omega) heq
  · rename_i sid attempts c2 heq
    rw [genLoop] at heq
    obtain ⟨hfind, i, hi⟩ := genLoopS_found_some heq
    subst hi
    have hsch : schemaValid parseOk ⟨jsTrim s, gen i, 0, now⟩ = true := by
      rw [schemaValid]
      simp [hlen i, hp]
    rw [if_pos hsch] at h
    split at h
    · simp at h
    · by_cases hlt : attempts < 5
      · rw [if_pos hlt] at h
        have hptrim : parseOk (jsTrim (jsTrim s)) = true := by
          rw [jsTrim_idem]; exact hp
        have hne : jsTrim s ≠ "" := by
          intro h0
          rw [h0, hempty] at hp
          cases hp
        exact hretry _ _ _ _ _ hptrim hne h
      · rw [if_neg hlt] at h; simp at h
    · simp at h

theorem createShortUrlAux_no_valerr {parseOk : String → Bool} {gen : Nat → String}
    {env : Nat → SaveOutcome} {baseUrl : String} {now : Nat}
    (hlen : ∀ i, (gen i).length = 8) (hempty : parseOk "" = false) :
    ∀ {fuel : Nat} {s : String} {store : Store} {c : Nat} {st : Store} {c1 : Nat},
      s ≠ "" → parseOk (jsTrim s) = true →
      createShortUrlAux parseOk gen env baseUrl 5 now fuel (some s) store c ≠
        some (.error .validationError, st, c1) := by
  intro fuel
  induction fuel with
  | zero =>
    intro s store c st c1 hs hp
    exact createStep_no_valerr hlen hempty hs hp
      (fun u st0 c0 st1 c2 _ _ hr => by cases hr)
  | succ fuel ih =>
    intro s store c st c1 hs hp
    exact createStep_no_valerr hlen hempty hs hp
      (fun u st0 c0 st1 c2 hpu hnu hr => ih hnu hpu hr)

theorem genLoopS_all_collide {store : Store} {gen : Nat → String} {maxA : Nat} :
    ∀ {left c attempts : Nat}, 0 < left → attempts + left = maxA →
      (∀ i, i < left → (findByShortId store (gen (c + i))).isSome = true) →
      genLoopS store gen maxA c attempts left = .exhausted (c + left) := by
  intro left
  induction left with
  | zero => intro c attempts h; exact absurd h (by omega)
  | succ l ih =>
    intro c attempts _ hinv hcol
    rw [genLoopS]
    obtain ⟨r, hr⟩ := Option.isSome_iff_exists.mp (by simpa using hcol 0 (by omega))
    rw [hr]
    by_cases hge : attempts + 1 ≥ maxA
    · rw [if_pos hge]
      have hl0 : l = 0 := by omega
      subst hl0
      rfl
    · rw [if_neg hge]
      have hrec := @ih (c + 1) (attempts + 1) (by omega) (by omega)
        (fun i hi => by
          have hx := hcol (i + 1) (by omega)
          have he : c + (i + 1) = c + 1 + i := by omega
          rw [he] at hx
          exact hx)
      rw [hrec]
      have he2 : c + 1 + l = c + (l + 1) := by omega
      rw [he2]

theorem getOriginalUrl_some_found {s : String} {store : Store} {r1 : UrlRecord}
    {st1 : Store} (hs : s ≠ "")
    (hinc : incFirst (jsTrim s) store = some (r1, st1)) :
    getOriginalUrl (some s) store = (.ok r1.originalUrl, st1) := by
  rw [getOriginalUrl, if_neg hs, hinc]

theorem getOriginalUrl_some_absent {s : String} {store : Store} (hs : s ≠ "")
    (hnone : incFirst (jsTrim s) store = none) :
    getOriginalUrl (some s) store = (.error .notFoundError, store) := by
  rw [getOriginalUrl, if_neg hs, hnone]

theorem getAnalytics_some_found {s : String} {store : Store} {r : UrlRecord}
    (hs : s ≠ "") (hr : findByShortId store (jsTrim s) = some r) :
    getAnalytics (some s) store =
      (.ok ⟨r.shortId, r.originalUrl, r.clickCount, r.createdAt⟩, store) := by
  rw [getAnalytics, if_neg hs, hr]

theorem getAnalytics_some_absent {s : String} {store : Store}
    (hs : s ≠ "") (h : findByShortId store (jsTrim s) = none) :
    getAnalytics (some s) store = (.error .notFoundError, store) := by
  rw [getAnalytics, if_neg hs, h]

theorem getAnalytics_snd (sid : Option String) (store : Store) :
    (getAnalytics sid store).2 = store := by
  cases sid with
  | none => rfl
  | some s =>
    by_cases hs : s = ""
    · subst hs; rfl
    · cases h : findByShortId store (jsTrim s) with
      | none => rw [getAnalytics_some_absent hs h]
      | some r => rw [getAnalytics_some_found hs h]

/-- C1: the claim states that the total number of identifier-generation
attempts of one create operation is bounded by maxAttempts (5) and that the
attempt counter is never reset by an internal recursive call. The code
violates this: in the run below every save hits a storage-level
duplicate-key race for the first six saves, each race re-invokes
createShortUrl recursively with the attempts counter reset to 0, and the
operation still succeeds after 7 identifier-generation attempts (the final
component of the result is the total generation count), exceeding the claimed
hard ceiling of 5. -/
theorem createShortUrl_attempt_counter_is_reset :
    createShortUrl (fun _ => true) (fun _ => "aaaaaaaa")
        (fun n => if n ≤ 6 then SaveOutcome.dupKey else SaveOutcome.ok)
        "http://sho.rt" 0 10 (some "https://example.com/a") [] =
      some (.ok ⟨"aaaaaaaa", "http://sho.rt/aaaaaaaa", "https://example.com/a"⟩,
        [⟨"https://example.com/a", "aaaaaaaa", 0, 0⟩], 7) ∧ 5 < 7 :=
  ⟨rfl, by omega⟩

/-- C2: a successful createShortUrl returns a shortId distinct from the
shortId of every previously stored record, and shortId uniqueness of the
store is preserved. The statement quantifies over every race oracle env and
every generator gen: the guarantee rests on the storage layer (a save whose
candidate is already stored always fails with the duplicate-key error of the
unique index), not merely on the existence pre-check. -/
theorem createShortUrl_shortId_unique
    (parseOk : String → Bool) (gen : Nat → String) (env : Nat → SaveOutcome)
    (baseUrl : String) (now fuel : Nat) (rawUrl : Option String) (store : Store)
    (out : CreateOk) (st : Store) (c1 : Nat)
    (hnodup : (store.map (fun r => r.shortId)).Nodup)
    (hok : createShortUrl parseOk gen env baseUrl now fuel rawUrl store =
      some (.ok out, st, c1)) :
    out.shortId ∉ store.map (fun r => r.shortId) ∧
    (st.map (fun r => r.shortId)).Nodup := by
  obtain ⟨hst, hfresh, -, -, -, -⟩ := createShortUrlAux_ok hok
  have hmem : out.shortId ∉ store.map (fun r => r.shortId) := by
    intro hm
    obtain ⟨r, hrmem, hrid⟩ := List.mem_map.mp hm
    exact findByShortId_eq_none.mp hfresh r hrmem hrid
  refine ⟨hmem, ?_⟩
  subst hst
  rw [List.map_append]
  simp only [List.nodup_append, List.map_cons, List.map_nil]
  refine ⟨hnodup, by simp, ?_⟩
  intro a ha hb
  simp only [List.mem_cons, List.not_mem_nil, or_false] at hb
  subst hb
  exact hmem ha

/-- Witness for C2 at a concrete run on the empty store. -/
theorem createShortUrl_shortId_unique_w :
    (⟨"aaaaaaaa", "http://sho.rt/aaaaaaaa", "https://example.com/a"⟩ :
        CreateOk).shortId ∉ ([] : Store).map (fun r => r.shortId) ∧
    (([⟨"https://example.com/a", "aaaaaaaa", 0, 0⟩] : Store).map
        (fun r => r.shortId)).Nodup :=
  createShortUrl_shortId_unique (fun _ => true) (fun _ => "aaaaaaaa")
    (fun _ => .ok) "http://sho.rt" 0 0 (some "https://example.com/a") []
    ⟨"aaaaaaaa", "http://sho.rt/aaaaaaaa", "https://example.com/a"⟩
    [⟨"https://example.com/a", "aaaaaaaa", 0, 0⟩] 1 (by simp) rfl

/-- C3: for a stored shortId, getOriginalUrl increments that record's
clickCount by exactly one in the single atomic findOneAndUpdate operation,
touches no other record, and returns the record's originalUrl; for an absent
shortId it fails with NotFoundError and leaves the store unchanged. -/
theorem getOriginalUrl_spec (s : String) (store : Store) (hs : s ≠ "") :
    (∀ r, findByShortId store (jsTrim s) = some r →
      ∃ st, getOriginalUrl (some s) store = (.ok r.originalUrl, st) ∧
        clickCountOf st (jsTrim s) = some (r.clickCount + 1) ∧
        ∀ t, t ≠ jsTrim s → findByShortId st t = findByShortId store t) ∧
    (findByShortId store (jsTrim s) = none →
      getOriginalUrl (some s) store = (.error .notFoundError, store)) := by
  constructor
  · intro r hr
    obtain ⟨st1, hinc, hfind1, hframe⟩ := incFirst_of_find hr
    refine ⟨st1, ?_, ?_, hframe⟩
    · rw [getOriginalUrl_some_found hs hinc]
    · rw [clickCountOf, hfind1]
      rfl
  · intro hnone
    exact getOriginalUrl_some_absent hs (incFirst_eq_none.mpr hnone)

/-- Witness for C3 at a concrete store. -/
theorem getOriginalUrl_spec_w :
    ∃ st, getOriginalUrl (some "ab") [⟨"https://e.com/x", "ab", 3, 0⟩] =
        (.ok "https://e.com/x", st) ∧
      clickCountOf st (jsTrim "ab") = some (3 + 1) ∧
      ∀ t, t ≠ jsTrim "ab" →
        findByShortId st t = findByShortId [⟨"https://e.com/x", "ab", 3, 0⟩] t :=
  (getOriginalUrl_spec "ab" [⟨"https://e.com/x", "ab", 3, 0⟩] (by decide)).1
    ⟨"https://e.com/x", "ab", 3, 0⟩ (by decide)

/-- C4: when the generator returns an already-stored candidate on each of the
first five calls, createShortUrl fails with the server-class DatabaseError
(HTTP 500) after exactly maxAttempts = 5 identifier-generation attempts (the
final component of the result is the total generation count) and the store is
unchanged, so no record is written. -/
theorem createShortUrl_exhausts_after_five_attempts
    (parseOk : String → Bool) (gen : Nat → String) (env : Nat → SaveOutcome)
    (baseUrl : String) (now fuel : Nat) (s : String) (store : Store)
    (hs : s ≠ "") (hp : parseOk (jsTrim s) = true)
    (hcol : ∀ i, i < 5 → (findByShortId store (gen i)).isSome = true) :
    createShortUrl parseOk gen env baseUrl now fuel (some s) store =
      some (.error .databaseError, store, 5) := by
  have hloop : genLoop store gen 5 0 = .exhausted 5 := by
    rw [genLoop]
    have hall := @genLoopS_all_collide store gen 5 5 0 0 (by omega) (by omega)
      (fun i hi => by simpa using hcol i hi)
    simpa using hall
  have hstep : ∀ retry, createStep parseOk gen env baseUrl 5 now (some s)
      store 0 retry = some (.error .databaseError, store, 5) := by
    intro retry
    rw [createStep, if_neg hs, if_pos hp, hloop]
  rw [createShortUrl]
  cases fuel with
  | zero =>
    rw [createShortUrlAux]
    exact hstep _
  | succ fuel =>
    rw [createShortUrlAux]
    exact hstep _

/-- Witness for C4 at a concrete store containing the constant candidate. -/
theorem createShortUrl_exhausts_after_five_attempts_w :
    createShortUrl (fun _ => true) (fun _ => "aaaaaaaa") (fun _ => .ok)
        "http://sho.rt" 0 3 (some "https://e.com") [⟨"https://x.y", "aaaaaaaa", 0, 0⟩] =
      some (.error .databaseError, [⟨"https://x.y", "aaaaaaaa", 0, 0⟩], 5) :=
  createShortUrl_exhausts_after_five_attempts (fun _ => true) (fun _ => "aaaaaaaa")
    (fun _ => .ok) "http://sho.rt" 0 3 "https://e.com"
    [⟨"https://x.y", "aaaaaaaa", 0, 0⟩] (by decide) rfl
    (fun i _ => (by decide :
      (findByShortId [⟨"https://x.y", "aaaaaaaa", 0, 0⟩] "aaaaaaaa").isSome = true))

/-- C5: createShortUrl fails with ValidationError, writing no record and
making no generation attempt, exactly when the raw input is missing or not a
string (none), the empty string, or does not parse as a URL after trimming;
otherwise validation passes and the trimmed URL is the one stored (the
hypotheses record that nanoid(8) returns 8-character identifiers and that the
empty string is not a well-formed URL). -/
theorem createShortUrl_validation_characterization
    (parseOk : String → Bool) (gen : Nat → String) (env : Nat → SaveOutcome)
    (baseUrl : String) (now fuel : Nat) (rawUrl : Option String) (store : Store)
    (hlen : ∀ i, (gen i).length = 8) (hempty : parseOk "" = false) :
    ((∃ st c1, createShortUrl parseOk gen env baseUrl now fuel rawUrl store =
        some (.error .validationError, st, c1)) ↔
      (rawUrl = none ∨ rawUrl = some "" ∨
        ∃ s, rawUrl = some s ∧ parseOk (jsTrim s) = false)) ∧
    ((rawUrl = none ∨ rawUrl = some "" ∨
        ∃ s, rawUrl = some s ∧ parseOk (jsTrim s) = false) →
      createShortUrl parseOk gen env baseUrl now fuel rawUrl store =
        some (.error .validationError, store, 0)) ∧
    (∀ s out st c1, rawUrl = some s →
      createShortUrl parseOk gen env baseUrl now fuel rawUrl store =
        some (.ok out, st, c1) → out.originalUrl = jsTrim s) := by
  have hback : (rawUrl = none ∨ rawUrl = some "" ∨
      ∃ s, rawUrl = some s ∧ parseOk (jsTrim s) = false) →
      createShortUrl parseOk gen env baseUrl now fuel rawUrl store =
        some (.error .validationError, store, 0) := by
    intro hbad
    rw [createShortUrl]
    exact createShortUrlAux_bad_input hbad
  refine ⟨⟨?_, fun hbad => ⟨store, 0, hback hbad⟩⟩, hback, ?_⟩
  · rintro ⟨st, c1, h⟩
    by_contra hbad
    push_neg at hbad
    obtain ⟨h1, h2, h3⟩ := hbad
    cases hraw : rawUrl with
    | none => exact h1 hraw
    | some s =>
      rw [hraw] at h
      have hs : s ≠ "" := by
        intro he
        subst he
        exact h2 hraw
      have hp : parseOk (jsTrim s) = true := by
        cases hpv : parseOk (jsTrim s) with
        | false => exact absurd hpv (h3 s hraw)
        | true => rfl
      rw [createShortUrl] at h
      exact createShortUrlAux_no_valerr hlen hempty hs hp h
  · intro s out st c1 hraw hok
    subst hraw
    obtain ⟨-, -, -, -, horig, -⟩ := createShortUrlAux_ok hok
    exact horig s rfl

/-- Witness for C5: the empty input fails validation on the empty store. -/
theorem createShortUrl_validation_characterization_w :
    createShortUrl (fun _ => false) (fun _ => "abcdefgh") (fun _ => .ok)
        "http://sho.rt" 0 0 (some "") [] =
      some (.error .validationError, [], 0) :=
  (createShortUrl_validation_characterization (fun _ => false)
      (fun _ => "abcdefgh") (fun _ => .ok) "http://sho.rt" 0 0 (some "") []
      (fun _ => rfl) rfl).2.1 (Or.inr (Or.inl rfl))

/-- C6: clickCount is a non-negative integer (it is modelled as a Nat, and the
schema forbids negative values) and no operation of the service decreases it:
createShortUrl and getAnalytics leave every existing count unchanged, and
getOriginalUrl never lowers one. -/
theorem clickCount_monotone :
    (∀ (parseOk : String → Bool) (gen : Nat → String) (env : Nat → SaveOutcome)
       (baseUrl : String) (now fuel : Nat) (rawUrl : Option String)
       (store : Store) (res : Except ServiceError CreateOk) (st : Store) (c1 : Nat),
      createShortUrl parseOk gen env baseUrl now fuel rawUrl store =
        some (res, st, c1) →
      ∀ id n, clickCountOf store id = some n →
        ∃ m, clickCountOf st id = some m ∧ n ≤ m) ∧
    (∀ (sid : Option String) (store : Store) (id : String) (n : Nat),
      clickCountOf store id = some n →
      ∃ m, clickCountOf (getOriginalUrl sid store).2 id = some m ∧ n ≤ m) ∧
    (∀ (sid : Option String) (store : Store) (id : String) (n : Nat),
      clickCountOf store id = some n →
      clickCountOf (getAnalytics sid store).2 id = some n) := by
  refine ⟨?_, ?_, ?_⟩
  · intro parseOk gen env baseUrl now fuel rawUrl store res st c1 h id n hn
    cases res with
    | error e =>
      have hst := createShortUrlAux_err h
      subst hst
      exact ⟨n, hn, le_refl n⟩
    | ok out =>
      obtain ⟨hst, -, -, -, -, -⟩ := createShortUrlAux_ok h
      subst hst
      rw [clickCountOf] at hn ⊢
      obtain ⟨r, hr, hrc⟩ := Option.map_eq_some'.mp hn
      rw [findByShortId_append_left hr]
      exact ⟨n, by rw [Option.map_some', hrc], le_refl n⟩
  · intro sid store id n hn
    cases sid with
    | none => exact ⟨n, hn, le_refl n⟩
    | some s =>
      by_cases hs : s = ""
      · subst hs
        exact ⟨n, hn, le_refl n⟩
      · cases hinc : incFirst (jsTrim s) store with
        | none =>
          rw [getOriginalUrl_some_absent hs hinc]
          exact ⟨n, hn, le_refl n⟩
        | some p =>
          obtain ⟨r1, st1⟩ := p
          obtain ⟨r, hfr, hr1, hfind1, hframe⟩ := incFirst_some_spec hinc
          rw [getOriginalUrl_some_found hs hinc]
          show ∃ m, clickCountOf st1 id = some m ∧ n ≤ m
          by_cases hid : id = jsTrim s
          · subst hid
            rw [clickCountOf, hfr, Option.map_some'] at hn
            have hcn : r.clickCount = n := by injection hn
            refine ⟨n + 1, ?_, by omega⟩
            rw [clickCountOf, hfind1, hr1, Option.map_some']
            rw [hcn]
          · refine ⟨n, ?_, le_refl n⟩
            rw [clickCountOf, hframe id hid]
            rw [clickCountOf] at hn
            exact hn
  · intro sid store id n hn
    rw [getAnalytics_snd]
    exact hn

/-- Witness for C6: getAnalytics leaves a concrete count unchanged. -/
theorem clickCount_monotone_w :
    clickCountOf (getAnalytics (some "ab") [⟨"https://u.v", "ab", 2, 0⟩]).2 "ab" =
      some 2 :=
  clickCount_monotone.2.2 (some "ab") [⟨"https://u.v", "ab", 2, 0⟩] "ab" 2
    (by decide)

/-- C7: getAnalytics is a pure read: the store after the call is exactly the
store before it (so no clickCount is mutated), a present record yields its
four fields, and an absent one yields NotFoundError. -/
theorem getAnalytics_pure_read (sid : Option String) (store : Store) :
    (getAnalytics sid store).2 = store ∧
    (∀ s r, sid = some s → s ≠ "" → findByShortId store (jsTrim s) = some r →
      (getAnalytics sid store).1 =
        .ok ⟨r.shortId, r.originalUrl, r.clickCount, r.createdAt⟩) ∧
    (∀ s, sid = some s → s ≠ "" → findByShortId store (jsTrim s) = none →
      (getAnalytics sid store).1 = .error .notFoundError) := by
  refine ⟨getAnalytics_snd sid store, ?_, ?_⟩
  · intro s r hsid hs hr
    subst hsid
    rw [getAnalytics_some_found hs hr]
  · intro s hsid hs hnone
    subst hsid
    rw [getAnalytics_some_absent hs hnone]

/-- Witness for C7 at a concrete record. -/
theorem getAnalytics_pure_read_w :
    (getAnalytics (some "ab") [⟨"https://e.com", "ab", 7, 4⟩]).1 =
      .ok ⟨"ab", "https://e.com", 7, 4⟩ :=
  (getAnalytics_pure_read (some "ab") [⟨"https://e.com", "ab", 7, 4⟩]).2.1 "ab"
    ⟨"https://e.com", "ab", 7, 4⟩ rfl (by decide) (by decide)

/-- C8: a successful createShortUrl followed by getOriginalUrl on the
returned shortId yields exactly the originalUrl that was stored, which is the
trimmed input URL (the hypothesis records that nanoid identifiers carry no
surrounding whitespace). -/
theorem create_then_resolve_roundtrip
    (parseOk : String → Bool) (gen : Nat → String) (env : Nat → SaveOutcome)
    (baseUrl : String) (now fuel : Nat) (s : String) (store : Store)
    (out : CreateOk) (st : Store) (c1 : Nat)
    (hgt : ∀ i, jsTrim (gen i) = gen i)
    (hok : createShortUrl parseOk gen env baseUrl now fuel (some s) store =
      some (.ok out, st, c1)) :
    (getOriginalUrl (some out.shortId) st).1 = .ok out.originalUrl ∧
    out.originalUrl = jsTrim s := by
  obtain ⟨hst, hfresh, hne, ⟨i, hi⟩, horig, -⟩ := createShortUrlAux_ok hok
  have htrim : jsTrim out.shortId = out.shortId := by rw [hi, hgt]
  have hrec : findByShortId st out.shortId =
      some ⟨out.originalUrl, out.shortId, 0, now⟩ := by
    subst hst
    rw [findByShortId_append hfresh]
    exact findByShortId_singleton
  obtain ⟨st2, hinc, -, -⟩ := incFirst_of_find hrec
  have hinc2 : incFirst (jsTrim out.shortId) st =
      some (⟨out.originalUrl, out.shortId, 0 + 1, now⟩, st2) := by
    rw [htrim]
    exact hinc
  rw [getOriginalUrl_some_found hne hinc2]
  exact ⟨rfl, horig s rfl⟩

/-- Witness for C8 at a concrete run on the empty store. -/
theorem create_then_resolve_roundtrip_w :
    (getOriginalUrl (some "bbbbbbbb")
        [⟨"https://example.com/a", "bbbbbbbb", 0, 0⟩]).1 =
      .ok "https://example.com/a" ∧
    "https://example.com/a" = jsTrim "https://example.com/a" :=
  create_then_resolve_roundtrip (fun _ => true) (fun _ => "bbbbbbbb")
    (fun _ => .ok) "http://sho.rt" 0 1 "https://example.com/a" []
    ⟨"bbbbbbbb", "http://sho.rt/bbbbbbbb", "https://example.com/a"⟩
    [⟨"https://example.com/a", "bbbbbbbb", 0, 0⟩] 1 (fun _ => rfl) rfl

/-- C9: a missing (none) or empty shortId argument makes both getOriginalUrl
and getAnalytics fail with ValidationError (not NotFoundError), with the
store passed through untouched, whatever the store contents: the guard runs
before any store lookup. -/
theorem lookup_rejects_missing_or_empty (store : Store) :
    getOriginalUrl none store = (.error .validationError, store) ∧
    getOriginalUrl (some "") store = (.error .validationError, store) ∧
    getAnalytics none store = (.error .validationError, store) ∧
    getAnalytics (some "") store = (.error .validationError, store) :=
  ⟨rfl, rfl, rfl, rfl⟩

/-- C10: the record written by a successful createShortUrl has clickCount 0,
so getAnalytics on the fresh shortId, before any getOriginalUrl call, reports
clickCount 0. -/
theorem fresh_record_zero_clickCount
    (parseOk : String → Bool) (gen : Nat → String) (env : Nat → SaveOutcome)
    (baseUrl : String) (now fuel : Nat) (rawUrl : Option String) (store : Store)
    (out : CreateOk) (st : Store) (c1 : Nat)
    (hgt : ∀ i, jsTrim (gen i) = gen i)
    (hok : createShortUrl parseOk gen env baseUrl now fuel rawUrl store =
      some (.ok out, st, c1)) :
    clickCountOf st out.shortId = some 0 ∧
    (getAnalytics (some out.shortId) st).1 =
      .ok ⟨out.shortId, out.originalUrl, 0, now⟩ := by
  obtain ⟨hst, hfresh, hne, ⟨i, hi⟩, -, -⟩ := createShortUrlAux_ok hok
  have htrim : jsTrim out.shortId = out.shortId := by rw [hi, hgt]
  have hrec : findByShortId st out.shortId =
      some ⟨out.originalUrl, out.shortId, 0, now⟩ := by
    subst hst
    rw [findByShortId_append hfresh]
    exact findByShortId_singleton
  constructor
  · rw [clickCountOf, hrec]
    rfl
  · have h2 : findByShortId st (jsTrim out.shortId) =
        some ⟨out.originalUrl, out.shortId, 0, now⟩ := by
      rw [htrim]
      exact hrec
    rw [getAnalytics_some_found hne h2]

/-- Witness for C10 at a concrete run on the empty store. -/
theorem fresh_record_zero_clickCount_w :
    clickCountOf [⟨"https://example.com/b", "cccccccc", 0, 0⟩] "cccccccc" =
      some 0 ∧
    (getAnalytics (some "cccccccc")
        [⟨"https://example.com/b", "cccccccc", 0, 0⟩]).1 =
      .ok ⟨"cccccccc", "https://example.com/b", 0, 0⟩ :=
  fresh_record_zero_clickCount (fun _ => true) (fun _ => "cccccccc")
    (fun _ => .ok) "http://sho.rt" 0 1 (some "https://example.com/b") []
    ⟨"cccccccc", "http://sho.rt/cccccccc", "https://example.com/b"⟩
    [⟨"https://example.com/b", "cccccccc", 0, 0⟩] 1 (fun _ => rfl) rfl

end UrlShortener
